import Mathlib

/-!
Verification development for the breakout trading bot
(`src/ibkr-breakout-trading-bot.py`).

The core strategy logic is shallowly embedded: prices are rationals,
quantities and times are integers, the Python dictionaries
(`self.positions`, `self.historical_data`, `self.current_day_data`) are
modelled as an insertion-ordered association list (for `positions`) and as
total functions from symbols to candle lists (for the two candle stores,
where the empty list models key absence — the source only ever stores
non-empty frames).  Side effects are made explicit: the orders dispatched
through the broker API and the rows inserted into the `trades` table are
accumulated in lists inside the state; `datetime.now()` is modelled by a
`now` field that the steps never change.
-/

namespace IBTrader

/-- Trading side of an order (the strings "BUY" / "SELL" in the source). -/
inductive Side where
  | buy
  | sell
deriving DecidableEq

/-- Order type of a broker order (the strings "MKT" / "LMT" in the source). -/
inductive OrderType where
  | mkt
  | lmt
deriving DecidableEq

/-- Exit reasons written into a position's `exit_reason` field by
`manage_trade` (the strings "Target reached" / "Stop loss hit"). -/
inductive ExitReason where
  | targetReached
  | stopLossHit
deriving DecidableEq

/-- Value of the `reason` column of a row of the `trades` table:
"Breakout found" for a BUY, the position's `exit_reason` for a SELL when the
symbol is still in `positions`, and "Unknown" otherwise. -/
inductive LogReason where
  | breakoutFound
  | exitWith (r : Option ExitReason)
  | unknown
deriving DecidableEq

/-- Index attached to a pandas row.  `ts n` models a valid datetime instant
(`pd.Timestamp` / `datetime.datetime`), measured in seconds; `other` models
any non-datetime index (the `isinstance` check in `simulate_new_candle`
distinguishes exactly these two cases). -/
inductive PyIndex where
  | ts (seconds : ℤ)
  | other
deriving DecidableEq

/-- One OHLCV candle row.  Field names follow the pandas columns
'Open', 'High', 'Low', 'Close', 'Volume'; `name` is the row index
(`candle.name` in the source). -/
structure Candle where
  Open : ℚ
  High : ℚ
  Low : ℚ
  Close : ℚ
  Volume : ℤ
  name : PyIndex
deriving DecidableEq

/-- The per-symbol position dictionary value built in `on_new_candle`:
`{'quantity', 'entry', 'target', 'stop_loss', 'entry_time', 'exit_reason'}`. -/
structure Position where
  quantity : ℤ
  entry : ℚ
  target : ℚ
  stop_loss : ℚ
  entry_time : PyIndex
  exit_reason : Option ExitReason
deriving DecidableEq

/-- The `ibapi` order object as filled in by `place_order`.  `lmtPrice = none`
models the field being left at its library default (never assigned). -/
structure Order where
  action : Side
  totalQuantity : ℤ
  orderType : OrderType
  lmtPrice : Option ℚ
deriving DecidableEq

/-- One row of the sqlite `trades` table, as inserted by `log_order`:
`(symbol, order_type, order_time, price, quantity, reason)`; the
auto-increment `id` column is the row's list index. -/
structure TradeRow where
  symbol : String
  order_type : Side
  order_time : ℤ
  price : ℚ
  quantity : ℤ
  reason : LogReason
deriving DecidableEq

/-- Lookup in a Python-dict-like association list: the value stored at the
first (and, for a genuine dict, only) occurrence of the key. -/
def dictLookup {β : Type} : List (String × β) → String → Option β
  | [], _ => none
  | (k, v) :: rest, key => if k = key then some v else dictLookup rest key

/-- Assignment `d[key] = v` on a Python-dict-like association list: replace
the value at the first occurrence of the key in place, else append. -/
def dictInsert {β : Type} : List (String × β) → String → β → List (String × β)
  | [], key, v => [(key, v)]
  | (k, w) :: rest, key, v =>
      if k = key then (k, v) :: rest else (k, w) :: dictInsert rest key v

/-- Deletion `del d[key]` on a Python-dict-like association list: remove the
first occurrence of the key. -/
def dictErase {β : Type} : List (String × β) → String → List (String × β)
  | [], _ => []
  | (k, w) :: rest, key => if k = key then rest else (k, w) :: dictErase rest key

/-- Python `int()` applied to a rational: truncation toward zero. -/
def pytrunc (q : ℚ) : ℤ := if 0 ≤ q then ⌊q⌋ else ⌈q⌉

/-- Python truthiness of an optional price: `None` and `0` are falsy. -/
def truthy : Option ℚ → Bool
  | none => false
  | some q => decide (q ≠ 0)

/-- Close of the last row of a frame (`frame.iloc[-1]['Close']`); the source
only evaluates this on non-empty frames, `0` is a dummy for the empty case. -/
def lastCloseD (l : List Candle) : ℚ :=
  match l.getLast? with
  | some c => c.Close
  | none => 0

/-- Full state of the bot: the fields of `BreakoutTradingBot.__init__` that
the strategy logic reads or writes, plus the explicit effect logs
(`orders` for dispatched broker orders, `trades` for the sqlite table). -/
structure BotState where
  nextOrderId : ℤ
  positions : List (String × Position)
  historical_data : String → List Candle
  current_day_data : String → List Candle
  max_investment : ℚ
  trades : List TradeRow
  orders : List (ℤ × String × Order)
  now : ℤ

/-- Source `log_order`: insert one row into the `trades` table. -/
def logOrder (s : BotState) (symbol : String) (order_type : Side) (price : ℚ)
    (quantity : ℤ) (reason : LogReason) : BotState :=
  { s with trades := s.trades ++
      [{ symbol := symbol, order_type := order_type, order_time := s.now,
         price := price, quantity := quantity, reason := reason }] }

/-- Price written into the log by `place_order`:
`price if price else self.current_day_data[symbol].iloc[-1]['Close']`
(note the Python truthiness: a supplied price of `0` also falls back). -/
def loggedPrice (s : BotState) (symbol : String) (price : Option ℚ) : ℚ :=
  if truthy price then price.getD 0 else lastCloseD (s.current_day_data symbol)

/-- Source `place_order`: build the `ibapi` order (`MKT` when `price is None`
else `LMT`; `lmtPrice` assigned only when `price` is truthy), dispatch it
under the current `nextOrderId`, increment the id, and log the order. -/
def placeOrder (s : BotState) (symbol : String) (action : Side) (quantity : ℤ)
    (price : Option ℚ) : BotState :=
  let order : Order :=
    { action := action, totalQuantity := quantity,
      orderType := if price = none then OrderType.mkt else OrderType.lmt,
      lmtPrice := if truthy price then price else none }
  let s1 := { s with
    orders := s.orders ++ [(s.nextOrderId, symbol, order)],
    nextOrderId := s.nextOrderId + 1 }
  match action with
  | Side.buy =>
      logOrder s1 symbol Side.buy (loggedPrice s1 symbol price) quantity
        LogReason.breakoutFound
  | Side.sell =>
      let reason :=
        match dictLookup s1.positions symbol with
        | some p => LogReason.exitWith p.exit_reason
        | none => LogReason.unknown
      logOrder s1 symbol Side.sell (loggedPrice s1 symbol price) quantity reason

/-- Source `calculate_average_candle_size`: mean of High − Low over the
symbol's historical frame, `0` when the symbol has no historical data. -/
def calculateAverageCandleSize (s : BotState) (symbol : String) : ℚ :=
  match s.historical_data symbol with
  | [] => 0
  | data@(_ :: _) =>
      ((data.map (fun c => c.High - c.Low)).sum) / (data.length : ℚ)

/-- Source `check_breakout`: false when the symbol is absent from
`current_day_data` or `historical_data`; false when the opening candle's
high does not exceed the frame's last close (gap filter); otherwise the
breakout condition on the current candle. -/
def checkBreakout (s : BotState) (symbol : String) (current_candle : Candle) :
    Bool :=
  match s.current_day_data symbol, s.historical_data symbol with
  | [], _ => false
  | _ :: _, [] => false
  | _ :: _, opening :: rest =>
      let prev_day_close := (((opening :: rest).getLast?).getD opening).Close
      if opening.High ≤ prev_day_close then false
      else
        decide (current_candle.Close > opening.High ∧
          current_candle.High - current_candle.Low ≥
            2 * calculateAverageCandleSize s symbol)

/-- Source `manage_trade`: when the symbol holds a position, compare the
latest close first against the target (reason "Target reached"), only then
against the stop loss (reason "Stop loss hit"); on either exit set the
reason, place the SELL, then delete the position. -/
def manageTrade (s : BotState) (symbol : String) : BotState :=
  match dictLookup s.positions symbol with
  | none => s
  | some position =>
      let current_price := lastCloseD (s.current_day_data symbol)
      if current_price ≥ position.target then
        let marked := { position with exit_reason := some ExitReason.targetReached }
        let s1 := { s with positions := dictInsert s.positions symbol marked }
        let s2 := placeOrder s1 symbol Side.sell position.quantity none
        { s2 with positions := dictErase s2.positions symbol }
      else if current_price ≤ position.stop_loss then
        let marked := { position with exit_reason := some ExitReason.stopLossHit }
        let s1 := { s with positions := dictInsert s.positions symbol marked }
        let s2 := placeOrder s1 symbol Side.sell position.quantity none
        { s2 with positions := dictErase s2.positions symbol }
      else s

/-- First half of `on_new_candle`: append the new candle to the symbol's
`current_day_data` frame (creating the entry when absent). -/
def appendCandle (s : BotState) (symbol : String) (candle : Candle) : BotState :=
  { s with current_day_data := fun sym =>
      if sym = symbol then s.current_day_data sym ++ [candle]
      else s.current_day_data sym }

/-- The position value built by the breakout branch of `on_new_candle`:
entry at the candle close, target one opening-range width above the opening
high, stop at the opening low, quantity `int(max_investment / entry_price)`. -/
def entryPosition (opening : Candle) (candle : Candle) (max_investment : ℚ) :
    Position :=
  { quantity := pytrunc (max_investment / candle.Close),
    entry := candle.Close,
    target := opening.High + (opening.High - opening.Low),
    stop_loss := opening.Low,
    entry_time := candle.name,
    exit_reason := none }

/-- Breakout branch of `on_new_candle`: when `check_breakout` fires, place a
BUY for the computed quantity and store the new position (overwriting any
existing one).  The source computes the entry data from
`historical_data[symbol].iloc[0]`; `check_breakout` returning true
guarantees that frame is non-empty, so the `[]` branch is dead code. -/
def breakoutEntry (s : BotState) (symbol : String) (candle : Candle) : BotState :=
  if checkBreakout s symbol candle then
    match s.historical_data symbol with
    | [] => s
    | opening :: _ =>
        let pos := entryPosition opening candle s.max_investment
        let s1 := placeOrder s symbol Side.buy pos.quantity none
        { s1 with positions := dictInsert s1.positions symbol pos }
  else s

/-- Source `on_new_candle`: append the candle, run the breakout entry
branch, then `manage_trade` for the symbol. -/
def onNewCandle (s : BotState) (symbol : String) (candle : Candle) : BotState :=
  manageTrade (breakoutEntry (appendCandle s symbol candle) symbol candle) symbol

/-- Source `simulate_new_candle` as a pure function of the prior candle and
the four `random.random()` draws consumed in source order; `now` models
`pd.Timestamp.now()` for the non-datetime-index fallback. -/
def simulateNewCandle (last_candle : Candle) (u u2 u3 u4 : ℚ) (now : ℤ) :
    Candle :=
  let open_price := last_candle.Close
  let close_price := open_price * (1 + (u - 0.5) * 0.01)
  let high_price := max open_price close_price * (1 + u2 * 0.005)
  let low_price := min open_price close_price * (1 - u3 * 0.005)
  let volume := pytrunc ((last_candle.Volume : ℚ) * (0.8 + u4 * 0.4))
  let new_datetime : PyIndex :=
    match last_candle.name with
    | PyIndex.ts t => PyIndex.ts (t + 300)
    | PyIndex.other => PyIndex.ts now
  { Open := open_price, High := high_price, Low := low_price,
    Close := close_price, Volume := volume, name := new_datetime }

/-- A run of the strategy loop: process a list of (symbol, candle) events
through `on_new_candle`, as `run_simulation` / `run_live_strategy` do. -/
def runSteps (s : BotState) (events : List (String × Candle)) : BotState :=
  events.foldl (fun st e => onNewCandle st e.1 e.2) s

/-- The long-only position invariant from the spec:
stop_loss_price < entry_price < target_price. -/
def PosInvariant (p : Position) : Prop :=
  p.stop_loss < p.entry ∧ p.entry < p.target

instance (p : Position) : Decidable (PosInvariant p) :=
  inferInstanceAs (Decidable (p.stop_loss < p.entry ∧ p.entry < p.target))

/-! Lemmas about the dictionary operations. -/

theorem dictLookup_dictInsert_self {β : Type} (l : List (String × β)) (k : String)
    (v : β) : dictLookup (dictInsert l k v) k = some v := by
  induction l with
  | nil => simp [dictInsert, dictLookup]
  | cons hd tl ih =>
      obtain ⟨k2, w⟩ := hd
      by_cases h : k2 = k
      · simp [dictInsert, dictLookup, h]
      · simp [dictInsert, dictLookup, h, ih]

theorem dictLookup_dictInsert_ne {β : Type} (l : List (String × β)) (k k2 : String)
    (v : β) (h : k2 ≠ k) : dictLookup (dictInsert l k v) k2 = dictLookup l k2 := by
  induction l with
  | nil => simp [dictInsert, dictLookup, Ne.symm h]
  | cons hd tl ih =>
      obtain ⟨k3, w⟩ := hd
      by_cases h3 : k3 = k
      · subst h3
        simp [dictInsert, dictLookup, Ne.symm h]
      · simp only [dictInsert, if_neg h3]
        by_cases h4 : k3 = k2
        · simp [dictLookup, h4]
        · simp [dictLookup, h4, ih]

theorem mem_dictInsert {β : Type} {l : List (String × β)} {k : String} {v : β}
    {p : String × β} (hp : p ∈ dictInsert l k v) : p = (k, v) ∨ p ∈ l := by
  induction l with
  | nil => simpa [dictInsert] using hp
  | cons hd tl ih =>
      obtain ⟨k2, w⟩ := hd
      by_cases h : k2 = k
      · subst h
        rcases (by simpa [dictInsert] using hp : p = (k2, v) ∨ p ∈ tl) with h1 | h1
        · exact Or.inl (by simpa using h1)
        · exact Or.inr (List.mem_cons_of_mem _ h1)
      · rcases (by simpa [dictInsert, h] using hp : p = (k2, w) ∨ p ∈ dictInsert tl k v)
          with h1 | h1
        · exact Or.inr (by simp [h1])
        · rcases ih h1 with h2 | h2
          · exact Or.inl h2
          · exact Or.inr (List.mem_cons_of_mem _ h2)

theorem dictErase_sublist {β : Type} (l : List (String × β)) (k : String) :
    List.Sublist (dictErase l k) l := by
  induction l with
  | nil => simp [dictErase]
  | cons hd tl ih =>
      obtain ⟨k2, w⟩ := hd
      by_cases h : k2 = k
      · simp only [dictErase, if_pos h]
        exact List.sublist_cons_self (k2, w) tl
      · simp only [dictErase, if_neg h]
        exact List.Sublist.cons₂ (k2, w) ih

theorem mem_dictErase {β : Type} {l : List (String × β)} {k : String}
    {p : String × β} (hp : p ∈ dictErase l k) : p ∈ l :=
  (dictErase_sublist l k).mem hp

theorem dictErase_dictInsert {β : Type} (l : List (String × β)) (k : String)
    (v : β) : dictErase (dictInsert l k v) k = dictErase l k := by
  induction l with
  | nil => simp [dictInsert, dictErase]
  | cons hd tl ih =>
      obtain ⟨k2, w⟩ := hd
      by_cases h : k2 = k
      · simp [dictInsert, dictErase, h]
      · simp [dictInsert, dictErase, h, ih]

theorem keys_dictInsert {β : Type} (l : List (String × β)) (k : String) (v : β)
    (h : (l.map Prod.fst).Nodup) : ((dictInsert l k v).map Prod.fst).Nodup := by
  induction l with
  | nil => simp [dictInsert]
  | cons hd tl ih =>
      obtain ⟨k2, w⟩ := hd
      simp only [List.map_cons, List.nodup_cons] at h
      by_cases hk : k2 = k
      · simp only [dictInsert, if_pos hk, List.map_cons, List.nodup_cons]
        exact h
      · simp only [dictInsert, if_neg hk, List.map_cons, List.nodup_cons]
        refine ⟨fun hmem => ?_, ih h.2⟩
        rcases List.mem_map.mp hmem with ⟨p, hp, hfst⟩
        rcases mem_dictInsert hp with h1 | h1
        · exact hk ((by simpa [h1] using hfst : k = k2).symm)
        · exact h.1 (List.mem_map.mpr ⟨p, h1, hfst⟩)

theorem keys_dictErase {β : Type} (l : List (String × β)) (k : String)
    (h : (l.map Prod.fst).Nodup) : ((dictErase l k).map Prod.fst).Nodup :=
  h.sublist (List.Sublist.map Prod.fst (dictErase_sublist l k))

theorem dictLookup_mem {β : Type} {l : List (String × β)} {k : String} {v : β}
    (h : dictLookup l k = some v) : (k, v) ∈ l := by
  induction l with
  | nil => simp [dictLookup] at h
  | cons hd tl ih =>
      obtain ⟨k2, w⟩ := hd
      by_cases h2 : k2 = k
      · subst h2
        obtain rfl : w = v := by simpa [dictLookup] using h
        simp
      · simp only [dictLookup, if_neg h2] at h
        exact List.mem_cons_of_mem _ (ih h)

theorem dictLookup_eq_none {β : Type} {l : List (String × β)} {k : String}
    (h : ∀ p ∈ l, p.1 ≠ k) : dictLookup l k = none := by
  induction l with
  | nil => simp [dictLookup]
  | cons hd tl ih =>
      obtain ⟨k2, w⟩ := hd
      have hne : k2 ≠ k := h (k2, w) (by simp)
      simp only [dictLookup, if_neg hne]
      exact ih fun p hp => h p (List.mem_cons_of_mem _ hp)

/-! Projection lemmas for the state transformers. -/

@[simp] theorem logOrder_positions (s : BotState) (sym : String) (t : Side)
    (pr : ℚ) (q : ℤ) (r : LogReason) :
    (logOrder s sym t pr q r).positions = s.positions := rfl

@[simp] theorem logOrder_current_day (s : BotState) (sym : String) (t : Side)
    (pr : ℚ) (q : ℤ) (r : LogReason) :
    (logOrder s sym t pr q r).current_day_data = s.current_day_data := rfl

@[simp] theorem logOrder_historical (s : BotState) (sym : String) (t : Side)
    (pr : ℚ) (q : ℤ) (r : LogReason) :
    (logOrder s sym t pr q r).historical_data = s.historical_data := rfl

@[simp] theorem placeOrder_positions (s : BotState) (sym : String) (a : Side)
    (q : ℤ) (pr : Option ℚ) : (placeOrder s sym a q pr).positions = s.positions := by
  cases a <;> rfl

@[simp] theorem placeOrder_current_day (s : BotState) (sym : String) (a : Side)
    (q : ℤ) (pr : Option ℚ) :
    (placeOrder s sym a q pr).current_day_data = s.current_day_data := by
  cases a <;> rfl

@[simp] theorem placeOrder_historical (s : BotState) (sym : String) (a : Side)
    (q : ℤ) (pr : Option ℚ) :
    (placeOrder s sym a q pr).historical_data = s.historical_data := by
  cases a <;> rfl

@[simp] theorem appendCandle_positions (s : BotState) (sym : String) (c : Candle) :
    (appendCandle s sym c).positions = s.positions := rfl

@[simp] theorem appendCandle_historical (s : BotState) (sym : String) (c : Candle) :
    (appendCandle s sym c).historical_data = s.historical_data := rfl

theorem appendCandle_current_day_self (s : BotState) (sym : String) (c : Candle) :
    (appendCandle s sym c).current_day_data sym = s.current_day_data sym ++ [c] := by
  simp [appendCandle]

theorem breakoutEntry_historical (s : BotState) (sym : String) (c : Candle) :
    (breakoutEntry s sym c).historical_data = s.historical_data := by
  unfold breakoutEntry
  by_cases h : checkBreakout s sym c
  · simp only [if_pos h]
    cases hd : s.historical_data sym <;> simp
  · simp [if_neg h]

theorem breakoutEntry_current_day (s : BotState) (sym : String) (c : Candle) :
    (breakoutEntry s sym c).current_day_data = s.current_day_data := by
  unfold breakoutEntry
  by_cases h : checkBreakout s sym c
  · simp only [if_pos h]
    cases hd : s.historical_data sym <;> simp
  · simp [if_neg h]

theorem manageTrade_historical (s : BotState) (sym : String) :
    (manageTrade s sym).historical_data = s.historical_data := by
  unfold manageTrade
  cases h : dictLookup s.positions sym with
  | none => rfl
  | some p =>
      by_cases h1 : lastCloseD (s.current_day_data sym) ≥ p.target
      · simp [if_pos h1]
      · by_cases h2 : lastCloseD (s.current_day_data sym) ≤ p.stop_loss
        · simp [if_neg h1, if_pos h2]
        · simp [if_neg h1, if_neg h2]

theorem onNewCandle_historical (s : BotState) (sym : String) (c : Candle) :
    (onNewCandle s sym c).historical_data = s.historical_data := by
  unfold onNewCandle
  rw [manageTrade_historical, breakoutEntry_historical, appendCandle_historical]

/-- Close of the last element of an appended singleton. -/
theorem lastCloseD_append (l : List Candle) (c : Candle) :
    lastCloseD (l ++ [c]) = c.Close := by
  simp [lastCloseD]

/-! Characterization of the branches of `manageTrade` and `breakoutEntry`. -/

theorem manageTrade_none (s : BotState) (sym : String)
    (hp : dictLookup s.positions sym = none) : manageTrade s sym = s := by
  simp [manageTrade, hp]

theorem manageTrade_hold (s : BotState) (sym : String) (p : Position)
    (hp : dictLookup s.positions sym = some p)
    (h1 : ¬ lastCloseD (s.current_day_data sym) ≥ p.target)
    (h2 : ¬ lastCloseD (s.current_day_data sym) ≤ p.stop_loss) :
    manageTrade s sym = s := by
  simp [manageTrade, hp, if_neg h1, if_neg h2]

theorem manageTrade_exit_target (s : BotState) (sym : String) (p : Position)
    (hp : dictLookup s.positions sym = some p)
    (h1 : lastCloseD (s.current_day_data sym) ≥ p.target) :
    manageTrade s sym = { s with
      positions := dictErase s.positions sym,
      nextOrderId := s.nextOrderId + 1,
      orders := s.orders ++
        [(s.nextOrderId, sym, ⟨Side.sell, p.quantity, OrderType.mkt, none⟩)],
      trades := s.trades ++
        [⟨sym, Side.sell, s.now, lastCloseD (s.current_day_data sym), p.quantity,
          LogReason.exitWith (some ExitReason.targetReached)⟩] } := by
  simp [manageTrade, hp, if_pos h1, placeOrder, logOrder, loggedPrice, truthy,
    dictLookup_dictInsert_self, dictErase_dictInsert]

theorem manageTrade_exit_stop (s : BotState) (sym : String) (p : Position)
    (hp : dictLookup s.positions sym = some p)
    (h1 : ¬ lastCloseD (s.current_day_data sym) ≥ p.target)
    (h2 : lastCloseD (s.current_day_data sym) ≤ p.stop_loss) :
    manageTrade s sym = { s with
      positions := dictErase s.positions sym,
      nextOrderId := s.nextOrderId + 1,
      orders := s.orders ++
        [(s.nextOrderId, sym, ⟨Side.sell, p.quantity, OrderType.mkt, none⟩)],
      trades := s.trades ++
        [⟨sym, Side.sell, s.now, lastCloseD (s.current_day_data sym), p.quantity,
          LogReason.exitWith (some ExitReason.stopLossHit)⟩] } := by
  simp [manageTrade, hp, if_neg h1, if_pos h2, placeOrder, logOrder, loggedPrice,
    truthy, dictLookup_dictInsert_self, dictErase_dictInsert]

/-- In every branch, `manage_trade` either deletes the symbol's entry or
leaves the dictionary unchanged, and in the latter case a held position was
strictly inside its exit band. -/
theorem manageTrade_positions (s : BotState) (sym : String) :
    (manageTrade s sym).positions = dictErase s.positions sym
    ∨ ((manageTrade s sym).positions = s.positions ∧
        ∀ p, dictLookup s.positions sym = some p →
          lastCloseD (s.current_day_data sym) < p.target ∧
          p.stop_loss < lastCloseD (s.current_day_data sym)) := by
  cases hp : dictLookup s.positions sym with
  | none =>
      right
      rw [manageTrade_none s sym hp]
      exact ⟨rfl, fun p h => by simp at h⟩
  | some p =>
      by_cases h1 : lastCloseD (s.current_day_data sym) ≥ p.target
      · left
        rw [manageTrade_exit_target s sym p hp h1]
      · by_cases h2 : lastCloseD (s.current_day_data sym) ≤ p.stop_loss
        · left
          rw [manageTrade_exit_stop s sym p hp h1 h2]
        · right
          constructor
          · rw [manageTrade_hold s sym p hp h1 h2]
          · intro q hq
            obtain rfl : p = q := Option.some.inj hq
            exact ⟨lt_of_not_ge h1, lt_of_not_le h2⟩

theorem checkBreakout_true_hist {s : BotState} {sym : String} {c : Candle}
    (hb : checkBreakout s sym c = true) : s.historical_data sym ≠ [] := by
  intro h
  cases hcd : s.current_day_data sym <;> simp [checkBreakout, h, hcd] at hb

theorem checkBreakout_of_hist_nil (s : BotState) (sym : String) (c : Candle)
    (h : s.historical_data sym = []) : checkBreakout s sym c = false := by
  cases hcd : s.current_day_data sym <;> simp [checkBreakout, h, hcd]

theorem checkBreakout_of_current_day_nil (s : BotState) (sym : String)
    (c : Candle) (h : s.current_day_data sym = []) :
    checkBreakout s sym c = false := by
  cases hh : s.historical_data sym <;> simp [checkBreakout, h, hh]

theorem breakoutEntry_nofire (s : BotState) (sym : String) (c : Candle)
    (hb : checkBreakout s sym c = false) : breakoutEntry s sym c = s := by
  simp [breakoutEntry, hb]

theorem breakoutEntry_fire (s : BotState) (sym : String) (c : Candle)
    (opening : Candle) (rest : List Candle)
    (hw : s.historical_data sym = opening :: rest)
    (hb : checkBreakout s sym c = true) :
    breakoutEntry s sym c = { s with
      positions := dictInsert s.positions sym
        (entryPosition opening c s.max_investment),
      nextOrderId := s.nextOrderId + 1,
      orders := s.orders ++
        [(s.nextOrderId, sym,
          ⟨Side.buy, (entryPosition opening c s.max_investment).quantity,
            OrderType.mkt, none⟩)],
      trades := s.trades ++
        [⟨sym, Side.buy, s.now, lastCloseD (s.current_day_data sym),
          (entryPosition opening c s.max_investment).quantity,
          LogReason.breakoutFound⟩] } := by
  simp [breakoutEntry, hb, hw, placeOrder, logOrder, loggedPrice, truthy]

/-- The positions dictionary after `breakoutEntry`: unchanged, or the new
entry position stored under the processed symbol when the detector fired. -/
theorem breakoutEntry_positions (s : BotState) (sym : String) (c : Candle) :
    (breakoutEntry s sym c).positions = s.positions
    ∨ ∃ opening rest, s.historical_data sym = opening :: rest ∧
        checkBreakout s sym c = true ∧
        (breakoutEntry s sym c).positions =
          dictInsert s.positions sym (entryPosition opening c s.max_investment) := by
  by_cases hb : checkBreakout s sym c
  · right
    cases hw : s.historical_data sym with
    | nil => exact absurd hw (checkBreakout_true_hist hb)
    | cons opening rest =>
        refine ⟨opening, rest, rfl, hb, ?_⟩
        rw [breakoutEntry_fire s sym c opening rest hw hb]
  · left
    rw [breakoutEntry_nofire s sym c (by simpa using hb)]

/-! Step-level preservation lemmas for the global invariants. -/

/-- One `on_new_candle` step preserves distinctness of the position keys. -/
theorem step_keys_nodup (s : BotState) (sym : String) (c : Candle)
    (h : (s.positions.map Prod.fst).Nodup) :
    (((onNewCandle s sym c).positions).map Prod.fst).Nodup := by
  have hApos : (appendCandle s sym c).positions = s.positions := rfl
  have hB : ((breakoutEntry (appendCandle s sym c) sym c).positions.map Prod.fst).Nodup := by
    rcases breakoutEntry_positions (appendCandle s sym c) sym c with hB | ⟨o, r, hw, hb, hB⟩
    · rw [hB, hApos]
      exact h
    · rw [hB, hApos]
      exact keys_dictInsert _ _ _ h
  rcases manageTrade_positions (breakoutEntry (appendCandle s sym c) sym c) sym with
    hM | ⟨hM, _⟩
  · simp only [onNewCandle]
    rw [hM]
    exact keys_dictErase _ _ hB
  · simp only [onNewCandle]
    rw [hM]
    exact hB

/-- One `on_new_candle` step preserves the fact that every held symbol has
historical data (the detector only fires for symbols with a window). -/
theorem step_positions_have_history (s : BotState) (sym : String) (c : Candle)
    (h : ∀ p ∈ s.positions, s.historical_data p.1 ≠ []) :
    ∀ p ∈ (onNewCandle s sym c).positions,
      (onNewCandle s sym c).historical_data p.1 ≠ [] := by
  intro q hq
  rw [onNewCandle_historical]
  have hApos : (appendCandle s sym c).positions = s.positions := rfl
  have hqB : q ∈ (breakoutEntry (appendCandle s sym c) sym c).positions := by
    rcases manageTrade_positions (breakoutEntry (appendCandle s sym c) sym c) sym with
      hM | ⟨hM, _⟩
    · simp only [onNewCandle] at hq
      rw [hM] at hq
      exact mem_dictErase hq
    · simp only [onNewCandle] at hq
      rw [hM] at hq
      exact hq
  rcases breakoutEntry_positions (appendCandle s sym c) sym c with hB | ⟨o, r, hw, hb, hB⟩
  · rw [hB, hApos] at hqB
    exact h q hqB
  · rw [hB, hApos] at hqB
    rcases mem_dictInsert hqB with h1 | h1
    · have hw2 : s.historical_data sym = o :: r := hw
      rw [h1]
      simp [hw2]
    · exact h q h1

theorem runSteps_historical (s : BotState) (evs : List (String × Candle)) :
    (runSteps s evs).historical_data = s.historical_data := by
  induction evs generalizing s with
  | nil => rfl
  | cons e tl ih =>
      show (runSteps (onNewCandle s e.1 e.2) tl).historical_data = s.historical_data
      rw [ih, onNewCandle_historical]

theorem runSteps_positions_have_history (s : BotState)
    (evs : List (String × Candle))
    (h : ∀ p ∈ s.positions, s.historical_data p.1 ≠ []) :
    ∀ p ∈ (runSteps s evs).positions,
      (runSteps s evs).historical_data p.1 ≠ [] := by
  induction evs generalizing s with
  | nil => exact h
  | cons e tl ih =>
      exact ih (onNewCandle s e.1 e.2) (step_positions_have_history s e.1 e.2 h)

/-! Concrete data used by the per-claim witnesses and counterexamples. -/

/-- Opening candle of a historical window that passes the gap filter:
high 101, low 99, close 100. -/
def hOpening : Candle :=
  { Open := 100, High := 101, Low := 99, Close := 100, Volume := 1000,
    name := PyIndex.ts 0 }

/-- Last candle of that window: prior close 98 (below the opening high). -/
def hLast : Candle :=
  { Open := 100, High := 101, Low := 99, Close := 98, Volume := 1000,
    name := PyIndex.ts 300 }

/-- A two-candle historical window with opening range 101..99 and prior
close 98; its average candle size is 2. -/
def wHist : List Candle := [hOpening, hLast]

/-- Historical window for the zero-quantity scenario: opening high 240,
low 100, prior close 200; average candle size 140. -/
def exHist1 : List Candle :=
  [{ Open := 200, High := 240, Low := 100, Close := 200, Volume := 1000,
     name := PyIndex.ts 0 },
   { Open := 200, High := 240, Low := 100, Close := 200, Volume := 1000,
     name := PyIndex.ts 300 }]

/-- Flat state holding the `exHist1` window for symbol "X", with the
source's `max_investment = 200`. -/
def exS1 : BotState :=
  { nextOrderId := 0, positions := [],
    historical_data := fun sym => if sym = "X" then exHist1 else [],
    current_day_data := fun _ => [],
    max_investment := 200, trades := [], orders := [], now := 0 }

/-- Breakout candle with close 250 (above the opening high 240) and range
300 (at least twice the average size 280 is not needed: 300 ≥ 280). -/
def exC1 : Candle :=
  { Open := 240, High := 400, Low := 100, Close := 250, Volume := 1000,
    name := PyIndex.ts 600 }

/-- C1: the code places the zero-quantity BUY and stores a quantity-0
position.  The entry price 250 exceeds `max_investment = 200`, the computed
quantity `int(200 / 250)` is 0, the detector fires, and `on_new_candle`
nevertheless dispatches a BUY order of quantity 0 and creates the position
with quantity 0 — the spec's zero-quantity guard does not exist in the code. -/
theorem c1_zero_quantity_entry_not_skipped :
    pytrunc (exS1.max_investment / exC1.Close) = 0 ∧
    checkBreakout (appendCandle exS1 "X" exC1) "X" exC1 = true ∧
    dictLookup (onNewCandle exS1 "X" exC1).positions "X" =
      some { quantity := 0, entry := 250, target := 380, stop_loss := 100,
             entry_time := PyIndex.ts 600, exit_reason := none } ∧
    (onNewCandle exS1 "X" exC1).orders =
      [(0, "X", { action := Side.buy, totalQuantity := 0,
                  orderType := OrderType.mkt, lmtPrice := none })] := by
  refine ⟨?_, ?_, ?_, ?_⟩ <;>
    norm_num [onNewCandle, appendCandle, breakoutEntry, checkBreakout,
      calculateAverageCandleSize, manageTrade, placeOrder, logOrder,
      loggedPrice, lastCloseD, dictLookup, dictInsert, dictErase,
      entryPosition, pytrunc, truthy, exS1, exHist1, exC1]

/-- Flat state holding the `wHist` window for symbol "X". -/
def cexS2 : BotState :=
  { nextOrderId := 0, positions := [],
    historical_data := fun sym => if sym = "X" then wHist else [],
    current_day_data := fun _ => [],
    max_investment := 200, trades := [], orders := [], now := 0 }

/-- Breakout candle whose close 200 is far above the computed target 103. -/
def cexC2 : Candle :=
  { Open := 100, High := 210, Low := 190, Close := 200, Volume := 1000,
    name := PyIndex.ts 600 }

/-- C2 counterexample: the detector fires and the entry transition stores a
position with entry 200 and target 103, so `entry_price < target_price`
fails at creation (the position is closed again within the same step). -/
theorem c2_invariant_fails_at_creation :
    checkBreakout (appendCandle cexS2 "X" cexC2) "X" cexC2 = true ∧
    (breakoutEntry (appendCandle cexS2 "X" cexC2) "X" cexC2).positions =
      [("X", entryPosition hOpening cexC2 200)] ∧
    ¬ ((entryPosition hOpening cexC2 200).entry <
        (entryPosition hOpening cexC2 200).target) ∧
    (onNewCandle cexS2 "X" cexC2).positions = [] := by
  refine ⟨?_, ?_, ?_, ?_⟩ <;>
    norm_num [onNewCandle, appendCandle, breakoutEntry, checkBreakout,
      calculateAverageCandleSize, manageTrade, placeOrder, logOrder,
      loggedPrice, lastCloseD, dictLookup, dictInsert, dictErase,
      entryPosition, pytrunc, truthy, cexS2, cexC2, wHist, hOpening, hLast]

/-- C2 (amended): the position invariant `stop_loss < entry < target` is an
invariant of the observable states: if every live position satisfies it
before an `on_new_candle` step, every live position satisfies it after the
step.  (At the instant of creation inside the step it can fail, as the
counterexample shows, but such a position is closed before the step ends.) -/
theorem c2_live_positions_satisfy_invariant (s : BotState) (sym : String)
    (c : Candle) (h : ∀ p ∈ s.positions, PosInvariant p.2) :
    ∀ p ∈ (onNewCandle s sym c).positions, PosInvariant p.2 := by
  intro q hq
  have hApos : (appendCandle s sym c).positions = s.positions := rfl
  rcases manageTrade_positions (breakoutEntry (appendCandle s sym c) sym c) sym with
    hM | ⟨hM, hcond⟩
  · simp only [onNewCandle] at hq
    rw [hM] at hq
    rcases breakoutEntry_positions (appendCandle s sym c) sym c with hB | ⟨o, r, hw, hb, hB⟩
    · rw [hB, hApos] at hq
      exact h q (mem_dictErase hq)
    · rw [hB, hApos, dictErase_dictInsert] at hq
      exact h q (mem_dictErase hq)
  · simp only [onNewCandle] at hq
    rw [hM] at hq
    rcases breakoutEntry_positions (appendCandle s sym c) sym c with hB | ⟨o, r, hw, hb, hB⟩
    · rw [hB, hApos] at hq
      exact h q hq
    · rw [hB, hApos] at hq
      rcases mem_dictInsert hq with h1 | h1
      · have hlook : dictLookup (breakoutEntry (appendCandle s sym c) sym c).positions sym
            = some (entryPosition o c s.max_investment) := by
          rw [hB]
          exact dictLookup_dictInsert_self _ _ _
        have hbnd := hcond _ hlook
        have hcp : lastCloseD
            ((breakoutEntry (appendCandle s sym c) sym c).current_day_data sym)
            = c.Close := by
          rw [breakoutEntry_current_day, appendCandle_current_day_self,
            lastCloseD_append]
        rw [hcp] at hbnd
        rw [h1]
        exact ⟨hbnd.2, hbnd.1⟩
      · exact h q h1

/-- State with one well-formed live position and no historical data. -/
def w2 : BotState :=
  { nextOrderId := 0,
    positions := [("X", ⟨1, 100, 110, 90, PyIndex.other, none⟩)],
    historical_data := fun _ => [],
    current_day_data := fun _ => [],
    max_investment := 200, trades := [], orders := [], now := 0 }

/-- Candle whose close 100 keeps the `w2` position inside its exit band. -/
def w2C : Candle :=
  { Open := 100, High := 100, Low := 100, Close := 100, Volume := 0,
    name := PyIndex.ts 0 }

/-- Witness for C2 at a concrete state. -/
theorem c2_live_positions_satisfy_invariant_witness :
    (∀ p ∈ w2.positions, PosInvariant p.2) ∧
    (∀ p ∈ (onNewCandle w2 "X" w2C).positions, PosInvariant p.2) :=
  ⟨by decide, c2_live_positions_satisfy_invariant w2 "X" w2C (by decide)⟩

/-- C3: the live position dictionary maps each symbol to at most one
position.  Starting from any state whose position keys are distinct (in
particular the initial empty dictionary), every run of candle-processing
steps keeps the keys distinct, so no symbol ever has two simultaneous live
positions. -/
theorem c3_at_most_one_position_per_symbol (s : BotState)
    (evs : List (String × Candle)) (h : (s.positions.map Prod.fst).Nodup) :
    (((runSteps s evs).positions).map Prod.fst).Nodup := by
  induction evs generalizing s with
  | nil => exact h
  | cons e tl ih => exact ih (onNewCandle s e.1 e.2) (step_keys_nodup s e.1 e.2 h)

/-- Witness for C3: a run of one step from the empty position dictionary. -/
theorem c3_at_most_one_position_per_symbol_witness :
    ((exS1.positions.map Prod.fst).Nodup) ∧
    (((runSteps exS1 [("X", exC1)]).positions).map Prod.fst).Nodup :=
  ⟨by decide, c3_at_most_one_position_per_symbol exS1 [("X", exC1)] (by decide)⟩

/-- C4: exit-priority law.  When a candle's close satisfies the target
condition and the stop-loss condition simultaneously, `manage_trade`
records the single SELL row with reason "Target reached" (the stop-loss
branch is behind an `elif` and is never evaluated), and removes the
position. -/
theorem c4_target_priority_on_simultaneous_exit (s : BotState) (sym : String)
    (p : Position) (hp : dictLookup s.positions sym = some p)
    (h1 : lastCloseD (s.current_day_data sym) ≥ p.target)
    (h2 : lastCloseD (s.current_day_data sym) ≤ p.stop_loss) :
    (manageTrade s sym).trades = s.trades ++
      [⟨sym, Side.sell, s.now, lastCloseD (s.current_day_data sym), p.quantity,
        LogReason.exitWith (some ExitReason.targetReached)⟩] ∧
    (manageTrade s sym).positions = dictErase s.positions sym := by
  rw [manageTrade_exit_target s sym p hp h1]
  exact ⟨rfl, rfl⟩

/-- Position whose target 5 lies below its stop 10, so a close of 7
satisfies both exit conditions at once. -/
def wP4 : Position :=
  { quantity := 2, entry := 6, target := 5, stop_loss := 10,
    entry_time := PyIndex.other, exit_reason := none }

/-- Candle with close 7. -/
def wC4 : Candle :=
  { Open := 7, High := 7, Low := 7, Close := 7, Volume := 0,
    name := PyIndex.ts 0 }

/-- State holding `wP4` for "X" with latest close 7. -/
def wS4 : BotState :=
  { nextOrderId := 5, positions := [("X", wP4)],
    historical_data := fun _ => [],
    current_day_data := fun sym => if sym = "X" then [wC4] else [],
    max_investment := 200, trades := [], orders := [], now := 7 }

/-- Witness for C4 at a concrete both-conditions state. -/
theorem c4_target_priority_on_simultaneous_exit_witness :
    dictLookup wS4.positions "X" = some wP4 ∧
    lastCloseD (wS4.current_day_data "X") ≥ wP4.target ∧
    lastCloseD (wS4.current_day_data "X") ≤ wP4.stop_loss ∧
    ((manageTrade wS4 "X").trades = wS4.trades ++
      [⟨"X", Side.sell, wS4.now, lastCloseD (wS4.current_day_data "X"),
        wP4.quantity, LogReason.exitWith (some ExitReason.targetReached)⟩] ∧
    (manageTrade wS4 "X").positions = dictErase wS4.positions "X") :=
  ⟨by decide, by decide, by decide,
    c4_target_priority_on_simultaneous_exit wS4 "X" wP4 (by decide) (by decide)
      (by decide)⟩

/-- Positions differing only in the entry price (10 versus 20). -/
def cexP5a : Position :=
  { quantity := 1, entry := 10, target := 25, stop_loss := 5,
    entry_time := PyIndex.other, exit_reason := none }

/-- See `cexP5a`. -/
def cexP5b : Position :=
  { quantity := 1, entry := 20, target := 25, stop_loss := 5,
    entry_time := PyIndex.other, exit_reason := none }

/-- Candle with close 30, above the target 25 of both positions. -/
def cexC5 : Candle :=
  { Open := 30, High := 30, Low := 30, Close := 30, Volume := 0,
    name := PyIndex.ts 0 }

/-- State holding `cexP5a` for "X". -/
def cexS5a : BotState :=
  { nextOrderId := 0, positions := [("X", cexP5a)],
    historical_data := fun _ => [],
    current_day_data := fun sym => if sym = "X" then [cexC5] else [],
    max_investment := 200, trades := [], orders := [], now := 0 }

/-- State holding `cexP5b` for "X"; otherwise identical to `cexS5a`. -/
def cexS5b : BotState :=
  { nextOrderId := 0, positions := [("X", cexP5b)],
    historical_data := fun _ => [],
    current_day_data := fun sym => if sym = "X" then [cexC5] else [],
    max_investment := 200, trades := [], orders := [], now := 0 }

/-- C5 counterexample: two closes with different entry prices (10 and 20)
and hence different profits (20 and 10) append byte-for-byte identical rows
to the trades table, so the persisted record cannot contain `entry_price`,
`entry_time`, `exit_time` or `profit_loss = (exit − entry) × quantity`: the
code logs a plain SELL order row, not the spec's TradeRecord. -/
theorem c5_ledger_row_determines_no_profit_loss :
    cexP5a.entry ≠ cexP5b.entry ∧
    (manageTrade cexS5a "X").trades = (manageTrade cexS5b "X").trades ∧
    (manageTrade cexS5a "X").trades =
      [⟨"X", Side.sell, 0, 30, 1,
        LogReason.exitWith (some ExitReason.targetReached)⟩] ∧
    (cexC5.Close - cexP5a.entry) * cexP5a.quantity ≠
      (cexC5.Close - cexP5b.entry) * cexP5b.quantity := by
  refine ⟨?_, ?_, ?_, ?_⟩ <;>
    norm_num [manageTrade, placeOrder, logOrder, loggedPrice, lastCloseD,
      dictLookup, dictInsert, dictErase, truthy, cexS5a, cexS5b, cexP5a,
      cexP5b, cexC5]

/-- C5 (amended): every position closure appends exactly one row to the
trades table — the SELL row carrying the symbol, the exit price (the
current close), the full quantity and the exit reason — and leaves every
previously persisted row untouched; the position is removed in the same
step.  No profit/loss or entry fields are persisted at closure. -/
theorem c5_close_appends_one_sell_row (s : BotState) (sym : String)
    (p : Position) (hp : dictLookup s.positions sym = some p)
    (hx : lastCloseD (s.current_day_data sym) ≥ p.target ∨
      lastCloseD (s.current_day_data sym) ≤ p.stop_loss) :
    (manageTrade s sym).trades = s.trades ++
      [⟨sym, Side.sell, s.now, lastCloseD (s.current_day_data sym), p.quantity,
        LogReason.exitWith (some
          (if lastCloseD (s.current_day_data sym) ≥ p.target then
            ExitReason.targetReached else ExitReason.stopLossHit))⟩] ∧
    (manageTrade s sym).positions = dictErase s.positions sym := by
  by_cases h1 : lastCloseD (s.current_day_data sym) ≥ p.target
  · rw [manageTrade_exit_target s sym p hp h1, if_pos h1]
    exact ⟨rfl, rfl⟩
  · have h2 : lastCloseD (s.current_day_data sym) ≤ p.stop_loss :=
      hx.resolve_left h1
    rw [manageTrade_exit_stop s sym p hp h1 h2, if_neg h1]
    exact ⟨rfl, rfl⟩

/-- Position for the C5 witness: stop-loss exit at close 39. -/
def wP5 : Position :=
  { quantity := 3, entry := 50, target := 60, stop_loss := 40,
    entry_time := PyIndex.other, exit_reason := none }

/-- Candle with close 39, at or below the stop 40. -/
def wC5 : Candle :=
  { Open := 39, High := 39, Low := 39, Close := 39, Volume := 0,
    name := PyIndex.ts 0 }

/-- State holding `wP5` for "X", with one pre-existing ledger row. -/
def wS5 : BotState :=
  { nextOrderId := 2, positions := [("X", wP5)],
    historical_data := fun _ => [],
    current_day_data := fun sym => if sym = "X" then [wC5] else [],
    max_investment := 200,
    trades := [⟨"X", Side.buy, 0, 50, 3, LogReason.breakoutFound⟩],
    orders := [], now := 5 }

/-- Witness for C5 at a concrete stop-loss close. -/
theorem c5_close_appends_one_sell_row_witness :
    dictLookup wS5.positions "X" = some wP5 ∧
    (lastCloseD (wS5.current_day_data "X") ≥ wP5.target ∨
      lastCloseD (wS5.current_day_data "X") ≤ wP5.stop_loss) ∧
    ((manageTrade wS5 "X").trades = wS5.trades ++
      [⟨"X", Side.sell, wS5.now, lastCloseD (wS5.current_day_data "X"),
        wP5.quantity, LogReason.exitWith (some
          (if lastCloseD (wS5.current_day_data "X") ≥ wP5.target then
            ExitReason.targetReached else ExitReason.stopLossHit))⟩] ∧
    (manageTrade wS5 "X").positions = dictErase wS5.positions "X") :=
  ⟨by decide, by decide,
    c5_close_appends_one_sell_row wS5 "X" wP5 (by decide) (by decide)⟩

/-- C6: gap filter.  Whenever the stored historical window's opening high
is at most the window's last close, the detector returns false for every
current candle and every state of the current-day accumulation. -/
theorem c6_gap_filter_rejects (s : BotState) (sym : String) (c : Candle)
    (opening : Candle) (rest : List Candle)
    (hw : s.historical_data sym = opening :: rest)
    (hg : opening.High ≤ (((opening :: rest).getLast?).getD opening).Close) :
    checkBreakout s sym c = false := by
  cases hcd : s.current_day_data sym with
  | nil => simp [checkBreakout, hcd]
  | cons a l => simp [checkBreakout, hcd, hw, hg]

/-- Window whose opening candle has high 101 and whose last close is 102. -/
def g2 : Candle :=
  { Open := 101, High := 103, Low := 100, Close := 102, Volume := 0,
    name := PyIndex.ts 300 }

/-- State holding the gap-rejected window [`hOpening`, `g2`] for "Y". -/
def wS6 : BotState :=
  { nextOrderId := 0, positions := [],
    historical_data := fun sym => if sym = "Y" then [hOpening, g2] else [],
    current_day_data := fun _ => [wC4],
    max_investment := 200, trades := [], orders := [], now := 0 }

/-- Witness for C6: opening high 101 ≤ prior close 102 rejects the candle. -/
theorem c6_gap_filter_rejects_witness :
    wS6.historical_data "Y" = hOpening :: [g2] ∧
    hOpening.High ≤ (((hOpening :: [g2]).getLast?).getD hOpening).Close ∧
    checkBreakout wS6 "Y" exC1 = false :=
  ⟨by decide, by decide,
    c6_gap_filter_rejects wS6 "Y" exC1 hOpening [g2] (by decide) (by decide)⟩

/-- A symbol with no historical window is inert: starting from a state
with no live positions, after any run of candle-processing steps, a symbol
whose historical window is absent/empty has the detector return false for
every candle, and the step for such a candle leaves the live position set
unchanged. -/
theorem runSteps_no_history_no_transition (s0 : BotState)
    (evs : List (String × Candle)) (sym : String) (c : Candle)
    (h0 : s0.positions = [])
    (hh : (runSteps s0 evs).historical_data sym = []) :
    checkBreakout (runSteps s0 evs) sym c = false ∧
    (onNewCandle (runSteps s0 evs) sym c).positions =
      (runSteps s0 evs).positions := by
  have hPH : ∀ p ∈ (runSteps s0 evs).positions,
      (runSteps s0 evs).historical_data p.1 ≠ [] :=
    runSteps_positions_have_history s0 evs
      (fun p hp => absurd hp (by simp [h0]))
  have hlook : dictLookup (runSteps s0 evs).positions sym = none :=
    dictLookup_eq_none fun p hp hkey => hPH p hp (by rw [hkey]; exact hh)
  refine ⟨checkBreakout_of_hist_nil _ sym c hh, ?_⟩
  have hbA : checkBreakout (appendCandle (runSteps s0 evs) sym c) sym c = false :=
    checkBreakout_of_hist_nil _ sym c hh
  simp only [onNewCandle]
  rw [breakoutEntry_nofire _ sym c hbA,
    manageTrade_none (appendCandle (runSteps s0 evs) sym c) sym hlook]
  rfl

/-- State with no positions and no data at all. -/
def w7 : BotState :=
  { nextOrderId := 0, positions := [],
    historical_data := fun _ => [],
    current_day_data := fun _ => [],
    max_investment := 200, trades := [], orders := [], now := 0 }

/-- Breakout candle for the C7 counterexample: close 102 above the opening
high 101, range 4 equal to twice the average candle size 2, landing inside
the new exit band (99, 103). -/
def cexC7 : Candle :=
  { Open := 100, High := 105, Low := 101, Close := 102, Volume := 1000,
    name := PyIndex.ts 600 }

/-- C7 counterexample: a symbol with no current-day candle accumulation is
not inert.  In `cexS2` the accumulation for "X" is absent (and the detector
evaluated on that state indeed returns false), yet `on_new_candle` appends
the incoming candle to the accumulation before running the detector, so the
step performs the Flat→Open transition and ends holding a new position. -/
theorem c7_absent_current_day_still_transitions :
    cexS2.current_day_data "X" = [] ∧
    checkBreakout cexS2 "X" cexC7 = false ∧
    (onNewCandle cexS2 "X" cexC7).positions =
      [("X", ⟨1, 102, 103, 99, PyIndex.ts 600, none⟩)] ∧
    (onNewCandle cexS2 "X" cexC7).positions ≠ cexS2.positions := by
  refine ⟨rfl, ?_, ?_, ?_⟩ <;>
    norm_num [onNewCandle, appendCandle, breakoutEntry, checkBreakout,
      calculateAverageCandleSize, manageTrade, placeOrder, logOrder,
      loggedPrice, lastCloseD, dictLookup, dictInsert, dictErase,
      entryPosition, pytrunc, truthy, cexS2, cexC7, wHist, hOpening, hLast]

/-- C7 (amended): for a symbol with no historical window or no current-day
accumulation the breakout detector returns false (on the state it is
evaluated against), and for a symbol with no historical window the
candle-processing step performs no position transition in any run starting
with no live positions.  The no-transition conclusion does not extend to
the absent-accumulation case: `on_new_candle` creates the accumulation by
appending the incoming candle before the detector runs, so a symbol with an
absent accumulation and a primed window can transition to Open on that very
candle (see the counterexample). -/
theorem c7_insufficient_data_detector_false (s0 : BotState)
    (evs : List (String × Candle)) (sym : String) (c : Candle)
    (h0 : s0.positions = []) :
    (∀ t : BotState, t.current_day_data sym = [] ∨ t.historical_data sym = [] →
      checkBreakout t sym c = false) ∧
    ((runSteps s0 evs).historical_data sym = [] →
      (onNewCandle (runSteps s0 evs) sym c).positions =
        (runSteps s0 evs).positions) := by
  constructor
  · intro t ht
    rcases ht with ht | ht
    · exact checkBreakout_of_current_day_nil t sym c ht
    · exact checkBreakout_of_hist_nil t sym c ht
  · intro hh
    exact (runSteps_no_history_no_transition s0 evs sym c h0 hh).2

/-- Witness for C7 at a concrete state and run. -/
theorem c7_insufficient_data_detector_false_witness :
    w7.positions = [] ∧
    ((∀ t : BotState,
        t.current_day_data "Z" = [] ∨ t.historical_data "Z" = [] →
          checkBreakout t "Z" wC4 = false) ∧
      ((runSteps w7 []).historical_data "Z" = [] →
        (onNewCandle (runSteps w7 []) "Z" wC4).positions =
          (runSteps w7 []).positions)) :=
  ⟨rfl, c7_insufficient_data_detector_false w7 [] "Z" wC4 rfl⟩

/-- Prior candle with close 100 and volume 10 for the C8 counterexample. -/
def cex8 : Candle :=
  { Open := 100, High := 100, Low := 100, Close := 100, Volume := 10,
    name := PyIndex.ts 0 }

/-- C8 counterexample: with the fourth draw U4 = 0.45 the volume factor is
0.98, so the new volume is `int(10 × 0.98) = int(9.8) = 9` in the code,
whereas the claim's `round(9.8)` is 10: the code truncates (Python `int`),
it does not round to nearest. -/
theorem c8_volume_truncates_not_rounds :
    (simulateNewCandle cex8 (1/2) 0 0 (45/100) 0).Volume = 9 ∧
    round (((10 : ℤ) : ℚ) * (8/10 + (45/100) * (4/10))) = 10 ∧
    (9 : ℤ) ≠ 10 := by
  refine ⟨?_, ?_, by decide⟩
  · norm_num [simulateNewCandle, pytrunc, cex8]
  · norm_num [round_eq]

/-- C8 (amended): the simulated candle realizes the spec's formulas with
the four uniform draws consumed in source order — open equals the prior
close, the stated close/high/low expressions, the timestamp rule (previous
instant plus 5 minutes, else "now") — and the volume is the floor
(truncation, not rounding to nearest) of `V0 × (0.8 + U4 × 0.4)`.  As a
pure function of the prior candle and the draws, the result is
deterministic for a fixed random source. -/
theorem c8_simulated_candle_formulas (c : Candle) (u u2 u3 u4 : ℚ) (now : ℤ)
    (hv : 0 ≤ c.Volume) (hu4 : 0 ≤ u4) :
    (simulateNewCandle c u u2 u3 u4 now).Open = c.Close ∧
    (simulateNewCandle c u u2 u3 u4 now).Close =
      c.Close * (1 + (u - 1/2) * (1/100)) ∧
    (simulateNewCandle c u u2 u3 u4 now).High =
      max (simulateNewCandle c u u2 u3 u4 now).Open
        (simulateNewCandle c u u2 u3 u4 now).Close * (1 + u2 * (1/200)) ∧
    (simulateNewCandle c u u2 u3 u4 now).Low =
      min (simulateNewCandle c u u2 u3 u4 now).Open
        (simulateNewCandle c u u2 u3 u4 now).Close * (1 - u3 * (1/200)) ∧
    (simulateNewCandle c u u2 u3 u4 now).Volume =
      ⌊(c.Volume : ℚ) * (4/5 + u4 * (2/5))⌋ ∧
    (simulateNewCandle c u u2 u3 u4 now).name =
      (match c.name with
        | PyIndex.ts t => PyIndex.ts (t + 300)
        | PyIndex.other => PyIndex.ts now) := by
  have hq : (0 : ℚ) ≤ (c.Volume : ℚ) * (0.8 + u4 * 0.4) := by
    have h1 : (0 : ℚ) ≤ (c.Volume : ℚ) := by exact_mod_cast hv
    have h2 : (0 : ℚ) ≤ 0.8 + u4 * 0.4 := by
      have := mul_nonneg hu4 (by norm_num : (0 : ℚ) ≤ 0.4)
      nlinarith
    exact mul_nonneg h1 h2
  refine ⟨rfl, by norm_num [simulateNewCandle], ?_, ?_, ?_, rfl⟩
  · show max c.Close (c.Close * (1 + (u - 0.5) * 0.01)) * (1 + u2 * 0.005) =
      max c.Close (c.Close * (1 + (u - 0.5) * 0.01)) * (1 + u2 * (1/200))
    norm_num
  · show min c.Close (c.Close * (1 + (u - 0.5) * 0.01)) * (1 - u3 * 0.005) =
      min c.Close (c.Close * (1 + (u - 0.5) * 0.01)) * (1 - u3 * (1/200))
    norm_num
  · show pytrunc ((c.Volume : ℚ) * (0.8 + u4 * 0.4)) =
      ⌊(c.Volume : ℚ) * (4/5 + u4 * (2/5))⌋
    rw [pytrunc, if_pos hq]
    norm_num

/-- Witness for C8 at concrete draws. -/
theorem c8_simulated_candle_formulas_witness :
    (0 ≤ cex8.Volume) ∧ (0 ≤ (3/10 : ℚ)) ∧
    ((simulateNewCandle cex8 (1/4) (1/5) (1/2) (3/10) 42).Open = cex8.Close ∧
    (simulateNewCandle cex8 (1/4) (1/5) (1/2) (3/10) 42).Close =
      cex8.Close * (1 + ((1/4) - 1/2) * (1/100)) ∧
    (simulateNewCandle cex8 (1/4) (1/5) (1/2) (3/10) 42).High =
      max (simulateNewCandle cex8 (1/4) (1/5) (1/2) (3/10) 42).Open
        (simulateNewCandle cex8 (1/4) (1/5) (1/2) (3/10) 42).Close *
          (1 + (1/5) * (1/200)) ∧
    (simulateNewCandle cex8 (1/4) (1/5) (1/2) (3/10) 42).Low =
      min (simulateNewCandle cex8 (1/4) (1/5) (1/2) (3/10) 42).Open
        (simulateNewCandle cex8 (1/4) (1/5) (1/2) (3/10) 42).Close *
          (1 - (1/2) * (1/200)) ∧
    (simulateNewCandle cex8 (1/4) (1/5) (1/2) (3/10) 42).Volume =
      ⌊(cex8.Volume : ℚ) * (4/5 + (3/10) * (2/5))⌋ ∧
    (simulateNewCandle cex8 (1/4) (1/5) (1/2) (3/10) 42).name =
      (match cex8.name with
        | PyIndex.ts t => PyIndex.ts (t + 300)
        | PyIndex.other => PyIndex.ts 42)) :=
  ⟨by decide, by norm_num,
    c8_simulated_candle_formulas cex8 (1/4) (1/5) (1/2) (3/10) 42
      (by decide) (by norm_num)⟩

/-- State with a non-empty current-day frame for "X" (so the fallback log
price is well defined), used for the C9 counterexample. -/
def w9 : BotState :=
  { nextOrderId := 0, positions := [],
    historical_data := fun _ => [],
    current_day_data := fun sym => if sym = "X" then
      [{ Open := 50, High := 50, Low := 50, Close := 50, Volume := 0,
         name := PyIndex.ts 0 }] else [],
    max_investment := 200, trades := [], orders := [], now := 0 }

/-- C9 counterexample: a supplied limit price of 0 produces an order of
type LMT whose `lmtPrice` is never assigned (Python `if price:` is false
at 0), not an order with limit price 0 as the claim states. -/
theorem c9_zero_limit_price_left_unset :
    (placeOrder w9 "X" Side.buy 1 (some 0)).orders =
      [(0, "X", { action := Side.buy, totalQuantity := 1,
                  orderType := OrderType.lmt, lmtPrice := none })] ∧
    ((none : Option ℚ) ≠ some 0) := by
  constructor
  · norm_num [placeOrder, logOrder, loggedPrice, lastCloseD, truthy, w9]
    intro h
    exact absurd h (by simp)
  · simp

/-- C9 (amended): each `place_order` call dispatches exactly one order
under the current id; its type is MKT exactly when no price is supplied,
otherwise LMT; the limit price is set to the supplied value when that value
is nonzero, and left unset when the supplied value is 0 (or absent). -/
theorem c9_order_type_and_limit_price (s : BotState) (sym : String)
    (act : Side) (q : ℤ) (price : Option ℚ) :
    ∃ o : Order,
      (placeOrder s sym act q price).orders =
        s.orders ++ [(s.nextOrderId, sym, o)] ∧
      o.action = act ∧ o.totalQuantity = q ∧
      (o.orderType = OrderType.mkt ↔ price = none) ∧
      o.lmtPrice = (if price = none ∨ price = some 0 then none else price) := by
  refine ⟨⟨act, q, if price = none then OrderType.mkt else OrderType.lmt,
    if truthy price then price else none⟩, ?_, rfl, rfl, ?_, ?_⟩
  · cases act <;> simp [placeOrder, logOrder]
  · cases price with
    | none => simp
    | some p => exact iff_of_false (by simp) (by simp)
  · cases price with
    | none => simp [truthy]
    | some p =>
        by_cases hp : p = 0
        · simp [truthy, hp]
        · simp [truthy, hp]

/-- Position held before the C10 re-entry. -/
def wP10 : Position :=
  { quantity := 1, entry := 100, target := 110, stop_loss := 90,
    entry_time := PyIndex.other, exit_reason := none }

/-- Fresh breakout candle: close 102 above the opening high 101, range 4 at
least twice the average size 2, and inside the new exit band (99, 103). -/
def wC10 : Candle :=
  { Open := 100, High := 105, Low := 101, Close := 102, Volume := 1000,
    name := PyIndex.ts 600 }

/-- State already holding `wP10` for "X" while the `wHist` window is primed
for another breakout. -/
def wS10 : BotState :=
  { nextOrderId := 3, positions := [("X", wP10)],
    historical_data := fun sym => if sym = "X" then wHist else [],
    current_day_data := fun _ => [],
    max_investment := 200, trades := [], orders := [], now := 9 }

/-- C10: re-entry without exit.  When the detector fires for a symbol that
already holds a live position, the step dispatches a fresh BUY, overwrites
the stored position with the newly computed one, and appends no SELL order
and no closure row for the old position — the entry transition is not
guarded on the symbol being flat. -/
theorem c10_breakout_overwrites_live_position (s : BotState) (sym : String)
    (c : Candle) (pOld : Position) (opening : Candle) (rest : List Candle)
    (hp : dictLookup s.positions sym = some pOld)
    (hw : s.historical_data sym = opening :: rest)
    (hb : checkBreakout (appendCandle s sym c) sym c = true)
    (h1 : c.Close < (entryPosition opening c s.max_investment).target)
    (h2 : (entryPosition opening c s.max_investment).stop_loss < c.Close) :
    dictLookup (onNewCandle s sym c).positions sym =
      some (entryPosition opening c s.max_investment) ∧
    (onNewCandle s sym c).orders = s.orders ++
      [(s.nextOrderId, sym,
        ⟨Side.buy, (entryPosition opening c s.max_investment).quantity,
          OrderType.mkt, none⟩)] ∧
    (onNewCandle s sym c).trades = s.trades ++
      [⟨sym, Side.buy, s.now, c.Close,
        (entryPosition opening c s.max_investment).quantity,
        LogReason.breakoutFound⟩] := by
  have hfire := breakoutEntry_fire (appendCandle s sym c) sym c opening rest hw hb
  have hlookB : dictLookup (breakoutEntry (appendCandle s sym c) sym c).positions
      sym = some (entryPosition opening c s.max_investment) := by
    rw [hfire]
    exact dictLookup_dictInsert_self _ _ _
  have hcp : lastCloseD
      ((breakoutEntry (appendCandle s sym c) sym c).current_day_data sym)
      = c.Close := by
    rw [breakoutEntry_current_day, appendCandle_current_day_self, lastCloseD_append]
  have hold := manageTrade_hold (breakoutEntry (appendCandle s sym c) sym c) sym
    (entryPosition opening c s.max_investment) hlookB
    (by rw [hcp]; exact not_le.mpr h1)
    (by rw [hcp]; exact not_le.mpr h2)
  simp only [onNewCandle]
  rw [hold]
  refine ⟨hlookB, ?_, ?_⟩
  · rw [hfire]
    exact rfl
  · rw [hfire]
    show (appendCandle s sym c).trades ++
        [⟨sym, Side.buy, s.now,
          lastCloseD ((appendCandle s sym c).current_day_data sym),
          (entryPosition opening c s.max_investment).quantity,
          LogReason.breakoutFound⟩] = _
    rw [appendCandle_current_day_self, lastCloseD_append]
    exact rfl

/-- Witness for C10 at a concrete state holding a position during a fresh
breakout. -/
theorem c10_breakout_overwrites_live_position_witness :
    dictLookup wS10.positions "X" = some wP10 ∧
    wS10.historical_data "X" = hOpening :: [hLast] ∧
    checkBreakout (appendCandle wS10 "X" wC10) "X" wC10 = true ∧
    wC10.Close < (entryPosition hOpening wC10 wS10.max_investment).target ∧
    (entryPosition hOpening wC10 wS10.max_investment).stop_loss < wC10.Close ∧
    dictLookup (onNewCandle wS10 "X" wC10).positions "X" =
      some (entryPosition hOpening wC10 wS10.max_investment) :=
  ⟨by decide, by decide,
    by norm_num [checkBreakout, appendCandle, calculateAverageCandleSize,
      wS10, wC10, wHist, hOpening, hLast],
    by norm_num [entryPosition, hOpening, wC10, wS10],
    by norm_num [entryPosition, hOpening, wC10, wS10],
    (c10_breakout_overwrites_live_position wS10 "X" wC10 wP10 hOpening [hLast]
      (by decide) (by decide)
      (by norm_num [checkBreakout, appendCandle, calculateAverageCandleSize,
        wS10, wC10, wHist, hOpening, hLast])
      (by norm_num [entryPosition, hOpening, wC10, wS10])
      (by norm_num [entryPosition, hOpening, wC10, wS10])).1⟩

end IBTrader
